import Mathlib

/-!
Shallow embedding of `ycmd/completers/python/python_completer.py`.

The external Jedi engine is abstracted: wherever the source calls
`script.goto_assignments()`, `script.goto_definitions()`, `script.usages()`
or `script.completions()`, the embedding takes the returned sequence (or,
for the re-resolution performed at a definition site, a function from a
definition to the sequence it resolves to) as a parameter.  Everything the
source itself computes on those sequences is translated directly.
-/

/-- Python string-join: `sep.join(strings)`. -/
def joinStr (sep : String) : List String → String
  | [] => ""
  | [a] => a
  | a :: rest => a ++ sep ++ joinStr sep rest

/-- Python truthiness of an optional string (`None` and the empty string are falsy). -/
def truthyStr : Option String → Bool
  | none => false
  | some s => !(s = "")

/-- Association-list lookup, modelling a Python dict read (`cache[key]`). -/
def alookup {κ ν : Type} [DecidableEq κ] : List (κ × ν) → κ → Option ν
  | [], _ => none
  | (k, v) :: rest, key => if key = k then some v else alookup rest key

/-- A parameter record returned by the engine; only its `description` is read
(`param.description[ 6: ]` in `_BuildTypeInfo`). -/
structure Param where
  description : String
deriving DecidableEq

/-- A definition-like record returned by the engine (jedi `Definition`):
`module_path` may be `None`, `line`/`column` are the declaration
coordinates, `name`/`description`/`docstring` are strings, and `params`
is absent (`AttributeError`) or a list. -/
structure Definition where
  module_path : Option String
  line : Nat
  column : Nat
  name : String
  description : String
  docstring : String
  params : Option (List Param)
deriving DecidableEq

/-- The `RuntimeError` raised by the navigation and doc/type queries
(spec name: NavigationError). -/
structure NavigationError where
  message : String
deriving DecidableEq

/-- The `RuntimeError` raised by `_EnvironmentForInterpreterPath`
(spec name: ResolutionError). -/
structure ResolutionError where
  message : String
deriving DecidableEq

/-- Whether an `Except` value is the error case (a raised exception). -/
def isError {ε α : Type} : Except ε α → Bool
  | Except.error _ => true
  | Except.ok _ => false

/-- A single go-to location, from `responses.BuildGoToResponse( path, line, column + 1 )`. -/
structure GoToLocation where
  filepath : Option String
  line_num : Nat
  column_num : Nat
deriving DecidableEq

/-- A go-to list entry, which additionally carries the description. -/
structure GoToEntry where
  filepath : Option String
  line_num : Nat
  column_num : Nat
  description : String
deriving DecidableEq

/-- Result shape of `_BuildGoToResponse`: one location when exactly one
definition is given, otherwise a list of entries. -/
inductive GoToResponseResult where
  | single (location : GoToLocation)
  | multiple (locations : List GoToEntry)
deriving DecidableEq

/-- Embedding of `_BuildGoToResponse`. -/
def BuildGoToResponse (definitions : List Definition) : GoToResponseResult :=
  match definitions with
  | [definition] =>
    GoToResponseResult.single
      ⟨definition.module_path, definition.line, definition.column + 1⟩
  | _ =>
    GoToResponseResult.multiple
      (definitions.map fun d => ⟨d.module_path, d.line, d.column + 1, d.description⟩)

/-- Embedding of the inner `_GoToDefinitionsWithSameName`: `resolve d` stands
for the engine re-resolution `goto_assignments()` run from the definition
site `d` (via `_GetJediScriptForDefinition`).  A falsy `module_path` returns
`[]`; otherwise the results are filtered to those with the same name but a
different (module_path, line, column). -/
def GoToDefinitionsWithSameName (resolve : Definition → List Definition)
    (definition : Definition) : List Definition :=
  if truthyStr definition.module_path = false then []
  else
    (resolve definition).filter fun d =>
      decide (d.name = definition.name ∧
        (d.module_path ≠ definition.module_path ∨
         d.line ≠ definition.line ∨
         d.column ≠ definition.column))

/-- One round of the `while keep_traversing` loop body in `_GoToDefinition`:
rebuilds the definition list, replacing each definition that re-resolves to a
non-empty same-name set by that set (and flagging that an advance occurred),
and keeping terminal definitions unchanged. -/
def chaseStep (resolve : Definition → List Definition) :
    List Definition → List Definition × Bool
  | [] => ([], false)
  | definition :: rest =>
    if (GoToDefinitionsWithSameName resolve definition).isEmpty
    then (definition :: (chaseStep resolve rest).1, (chaseStep resolve rest).2)
    else (GoToDefinitionsWithSameName resolve definition ++ (chaseStep resolve rest).1, true)

/-- The `while keep_traversing` loop of `_GoToDefinition`, with explicit fuel:
`none` means the loop has not exited within `fuel` rounds (the source loop has
no bound and can diverge), `some defs` is the final definition list. -/
def chaseLoop (resolve : Definition → List Definition) :
    Nat → List Definition → Option (List Definition)
  | 0, _ => none
  | fuel + 1, definitions =>
    if (chaseStep resolve definitions).2
    then chaseLoop resolve fuel (chaseStep resolve definitions).1
    else some (chaseStep resolve definitions).1

/-- The chase loop exits after finitely many rounds. -/
def ChaseTerminates (resolve : Definition → List Definition)
    (initial : List Definition) : Prop :=
  ∃ fuel, (chaseLoop resolve fuel initial).isSome = true

/-- Embedding of `_GoToDefinition`: `initial` is the engine result of the
first `goto_assignments()` call at the cursor; the chase loop then runs; on
exit, an empty final list raises, otherwise the response is built.
`none` means the source loop has not exited within `fuel` rounds. -/
def GoToDefinition (resolve : Definition → List Definition) (fuel : Nat)
    (initial : List Definition) : Option (Except NavigationError GoToResponseResult) :=
  match chaseLoop resolve fuel initial with
  | none => none
  | some definitions =>
    if definitions.isEmpty
    then some (Except.error ⟨"cannot jump to definition"⟩)
    else some (Except.ok (BuildGoToResponse definitions))

/-- Embedding of `_GoToType`: `goto_definitions` is the engine result of
`script.goto_definitions()`. -/
def GoToType (goto_definitions : List Definition) :
    Except NavigationError GoToResponseResult :=
  if goto_definitions.isEmpty
  then Except.error ⟨"cannot jump to type definition"⟩
  else Except.ok (BuildGoToResponse goto_definitions)

/-- Embedding of `_GoToReferences`: `usages` is the engine result of
`script.usages()`. -/
def GoToReferences (usages : List Definition) :
    Except NavigationError GoToResponseResult :=
  if usages.isEmpty
  then Except.error ⟨"cannot find references"⟩
  else Except.ok (BuildGoToResponse usages)

/-- Embedding of `_BuildTypeInfo`, over the two attributes it reads: the
description, plus the reconstructed parameter list when the `params`
attribute exists (`AttributeError` is modelled by `params = none`).  Each
parameter description has its first 6 characters (the `param ` prefix as the
source comment calls it) removed. -/
def BuildTypeInfo (description : String) (params : Option (List Param)) : String :=
  match params with
  | none => description
  | some ps =>
    description ++ "(" ++ joinStr ", " (ps.map fun p => p.description.drop 6) ++ ")"

/-- Response of `responses.BuildDisplayMessageResponse`. -/
structure DisplayMessageResponse where
  message : String
deriving DecidableEq

/-- Response of `responses.BuildDetailedInfoResponse`. -/
structure DetailedInfoResponse where
  text : String
deriving DecidableEq

/-- Embedding of `_GetType`: `goto_definitions` is the engine result; the
per-definition type strings are joined with a comma-space separator and the
query raises exactly when the joined string is falsy (empty). -/
def GetType (goto_definitions : List Definition) :
    Except NavigationError DisplayMessageResponse :=
  if joinStr ", " (goto_definitions.map fun d => BuildTypeInfo d.description d.params) = ""
  then Except.error ⟨"no type information available"⟩
  else Except.ok
    ⟨joinStr ", " (goto_definitions.map fun d => BuildTypeInfo d.description d.params)⟩

/-- Embedding of `_GetDoc`: the docstrings are joined with the separator and
the query raises exactly when the joined string is falsy (empty). -/
def GetDoc (goto_definitions : List Definition) :
    Except NavigationError DetailedInfoResponse :=
  if joinStr "\n---\n" (goto_definitions.map Definition.docstring) = ""
  then Except.error ⟨"no documentation available"⟩
  else Except.ok ⟨joinStr "\n---\n" (goto_definitions.map Definition.docstring)⟩

/-- The environment built at a cache miss in `_EnvironmentForInterpreterPath`:
`jedi.get_default_environment()` when the key is falsy, else
`jedi.create_environment( interpreter_path, safe = False )`. -/
def envForKey {Env : Type} (defaultEnv : Env) (createEnv : String → Env) :
    Option String → Env
  | none => defaultEnv
  | some p => if p = "" then defaultEnv else createEnv p

/-- Embedding of `_EnvironmentForInterpreterPath`.  `expand`, `findExe` and
`normpath` stand for `ExpandVariablesInPath`, `FindExecutable` and
`os.path.normpath`; `defaultEnv`/`createEnv` stand for the two jedi
environment constructors.  The cache is threaded explicitly and is returned
unchanged when the `RuntimeError` is raised (the raise happens before any
cache access). -/
def EnvironmentForInterpreterPath {Env : Type}
    (expand : String → String) (findExe : String → Option String)
    (normpath : String → String)
    (defaultEnv : Env) (createEnv : String → Env)
    (cache : List (Option String × Env)) (interpreter_path : Option String) :
    Except ResolutionError Env × List (Option String × Env) :=
  match
    (match interpreter_path with
     | some p =>
       if p = "" then Except.ok (some p)
       else
         match findExe (expand p) with
         | none =>
           Except.error
             (⟨"Cannot find Python interpreter path " ++ p ++ "."⟩ : ResolutionError)
         | some resolved => Except.ok (some (normpath resolved))
     | none => Except.ok none) with
  | Except.error e => (Except.error e, cache)
  | Except.ok key =>
    match alookup cache key with
    | some environment => (Except.ok environment, cache)
    | none =>
      (Except.ok (envForKey defaultEnv createEnv key),
       (key, envForKey defaultEnv createEnv key) :: cache)

/-- The shared try/except-KeyError caching idiom of `_SettingsForRequest`,
`_EnvironmentForRequest` and `_SysPathForFile`: look the key up, on a miss run
the computation and insert the result.  The third component records whether
the computation ran. -/
def cacheFetch {κ ν : Type} [DecidableEq κ] (compute : κ → ν)
    (cache : List (κ × ν)) (key : κ) : ν × List (κ × ν) × Bool :=
  match alookup cache key with
  | some v => (v, cache, false)
  | none => (compute key, (key, compute key) :: cache, true)

/-- Embedding of `_SettingsForRequest`, keyed by
`( filepath, client_data )`.  The miss-path body
(`extra_conf_store.ModuleForSourceFile` + `_GetSettings`) is abstracted as
the oracle `computeSettings`. -/
def SettingsForRequest {Settings ClientData : Type} [DecidableEq ClientData]
    (computeSettings : String → ClientData → Settings)
    (cache : List ((String × ClientData) × Settings))
    (filepath : String) (client_data : ClientData) :
    Settings × List ((String × ClientData) × Settings) × Bool :=
  cacheFetch (fun k => computeSettings k.1 k.2) cache (filepath, client_data)

/-- Embedding of `_EnvironmentForRequest`, keyed by
`( filepath, client_data )`.  The miss-path body (`_SettingsForRequest`
followed by `_EnvironmentForInterpreterPath`) is abstracted as the oracle
`computeEnvironment`. -/
def EnvironmentForRequest {Env ClientData : Type} [DecidableEq ClientData]
    (computeEnvironment : String → ClientData → Env)
    (cache : List ((String × ClientData) × Env))
    (filepath : String) (client_data : ClientData) :
    Env × List ((String × ClientData) × Env) × Bool :=
  cacheFetch (fun k => computeEnvironment k.1 k.2) cache (filepath, client_data)

/-- Embedding of `_SysPathForFile`, keyed by `( filepath, client_data )`.
The miss-path body (`_GetSysPath`) is abstracted as the oracle
`computeSysPath`. -/
def SysPathForFile {ClientData : Type} [DecidableEq ClientData]
    (computeSysPath : String → ClientData → List String)
    (cache : List ((String × ClientData) × List String))
    (filepath : String) (client_data : ClientData) :
    List String × List ((String × ClientData) × List String) × Bool :=
  cacheFetch (fun k => computeSysPath k.1 k.2) cache (filepath, client_data)

/-- A completion record returned by the engine (jedi `Completion`): the
fields read by `ComputeCandidatesInner`, `DetailCandidates` and
`_GetExtraData`.  `line` and `column` may be `None`. -/
structure Completion where
  name : String
  module_path : Option String
  line : Option Nat
  column : Option Nat
  docstring : String
  type : String
  description : String
  params : Option (List Param)
deriving DecidableEq

/-- The `location` record built by `_GetExtraData`. -/
structure CandidateLocation where
  filepath : String
  line_num : Nat
  column_num : Nat
deriving DecidableEq

/-- The `extra_data` field of a candidate: either the engine-native
`Completion` object stored by `ComputeCandidatesInner`, or the plain dict
written by `DetailCandidates` (which holds a location or is empty). -/
inductive ExtraData where
  | handle (completion : Completion)
  | record (location : Option CandidateLocation)
deriving DecidableEq

/-- A completion candidate as built by `responses.BuildCompletionData` and
mutated by `DetailCandidates`; fields absent before detailing are `none`. -/
structure Candidate where
  insertion_text : String
  extra_menu_info : Option String
  detailed_info : Option String
  kind : Option String
  extra_data : ExtraData
deriving DecidableEq

/-- Embedding of `_GetExtraData`: a location dict is produced only when
`module_path`, `line` and `column` are all truthy (non-None, non-empty,
non-zero); the stored column is 1-based. -/
def GetExtraData (completion : Completion) : Option CandidateLocation :=
  match completion.module_path, completion.line, completion.column with
  | some mp, some l, some c =>
    if mp ≠ "" ∧ l ≠ 0 ∧ c ≠ 0
    then some ⟨mp, l, c + 1⟩
    else none
  | _, _, _ => none

/-- Embedding of `ComputeCandidatesInner`: each engine completion becomes an
undetailed candidate whose `extra_data` holds the completion object. -/
def ComputeCandidatesInner (completions : List Completion) : List Candidate :=
  completions.map fun completion =>
    ⟨completion.name, none, none, none, ExtraData.handle completion⟩

/-- Embedding of the per-candidate body of `DetailCandidates`: a candidate
whose `extra_data` is already a dict is skipped; otherwise the display
fields are filled in from the stored completion and `extra_data` is replaced
by the plain record. -/
def DetailCandidate (candidate : Candidate) : Candidate :=
  match candidate.extra_data with
  | ExtraData.record _ => candidate
  | ExtraData.handle completion =>
    ⟨candidate.insertion_text,
     some (BuildTypeInfo completion.description completion.params),
     some completion.docstring,
     some completion.type,
     ExtraData.record (GetExtraData completion)⟩

/-- Embedding of `DetailCandidates` over a batch. -/
def DetailCandidates (candidates : List Candidate) : List Candidate :=
  candidates.map DetailCandidate

/-- Concrete definition at location `a.py:1:0` named `x` (for the cyclic
alias pair). -/
def defA : Definition := ⟨some "a.py", 1, 0, "x", "", "", none⟩

/-- Concrete definition at location `b.py:1:0` named `x` (for the cyclic
alias pair). -/
def defB : Definition := ⟨some "b.py", 1, 0, "x", "", "", none⟩

/-- An engine behaviour with a two-step alias cycle: `defA` re-resolves to
`defB` and `defB` re-resolves back to `defA` (same name, different
locations), everything else resolves to nothing. -/
def cycResolve (d : Definition) : List Definition :=
  if d = defA then [defB] else if d = defB then [defA] else []

/-- Concrete chain start `a.py:1:0`, name `x`. -/
def chainA : Definition := ⟨some "a.py", 1, 0, "x", "", "", none⟩

/-- Concrete chain middle `b.py:1:0`, name `x`. -/
def chainB : Definition := ⟨some "b.py", 1, 0, "x", "", "", none⟩

/-- Concrete chain end `c.py:1:0`, name `x`. -/
def chainC : Definition := ⟨some "c.py", 1, 0, "x", "", "", none⟩

/-- An engine behaviour realising the acyclic alias chain
`chainA` to `chainB` to `chainC` (`chainC` resolves to nothing). -/
def chainResolve (d : Definition) : List Definition :=
  if d = chainA then [chainB] else if d = chainB then [chainC] else []

/-- A definition with an empty docstring (for the GetDoc analysis). -/
def emptyDocDef : Definition := ⟨some "a.py", 1, 0, "x", "desc", "", none⟩

/-- A definition with an empty description and no params attribute (for the
GetType analysis). -/
def emptyTypeDef : Definition := ⟨some "a.py", 1, 0, "x", "", "doc", none⟩

/-- A string of length zero is the empty string. -/
theorem eq_empty_of_length_eq_zero {s : String} (h : s.length = 0) : s = "" := by
  cases s with
  | mk data =>
    cases data with
    | nil => rfl
    | cons c cs => simp [String.length] at h

/-- Unfolding `joinStr` on a list with at least two elements. -/
theorem joinStr_cons_cons (sep a b : String) (l : List String) :
    joinStr sep (a :: b :: l) = a ++ sep ++ joinStr sep (b :: l) := rfl

/-- With a non-empty separator, joining at least two strings is non-empty. -/
theorem joinStr_ne_empty (sep : String) (hsep : sep.length ≠ 0) (a b : String)
    (l : List String) : joinStr sep (a :: b :: l) ≠ "" := by
  intro h
  have hlen : (joinStr sep (a :: b :: l)).length = 0 := by rw [h]; rfl
  rw [joinStr_cons_cons] at hlen
  simp [String.length_append] at hlen
  omega

/-- With a non-empty separator, the join is empty exactly for the empty list
and for a singleton empty string. -/
theorem joinStr_eq_empty_iff (sep : String) (hsep : sep.length ≠ 0)
    (l : List String) : joinStr sep l = "" ↔ l = [] ∨ ∃ a, l = [a] ∧ a = "" := by
  cases l with
  | nil => simp [joinStr]
  | cons a rest =>
    cases rest with
    | nil => simp [joinStr]
    | cons b t =>
      constructor
      · intro h; exact absurd h (joinStr_ne_empty sep hsep a b t)
      · rintro (h | ⟨x, hx, -⟩)
        · exact absurd h (by simp)
        · simp at hx

/-- The built type string is empty exactly when the description is empty and
the params attribute is absent. -/
theorem BuildTypeInfo_eq_empty_iff (d : String) (ps : Option (List Param)) :
    BuildTypeInfo d ps = "" ↔ d = "" ∧ ps = none := by
  cases ps with
  | none => simp [BuildTypeInfo]
  | some l =>
    simp only [BuildTypeInfo]
    constructor
    · intro h
      have hlen : (d ++ "(" ++ joinStr ", " (l.map fun p => p.description.drop 6) ++ ")").length = 0 := by
        rw [h]; rfl
      simp [String.length_append] at hlen
      exact absurd hlen.1.1.2 (by decide)
    · rintro ⟨-, h⟩; cases h

/-- Unfolding `chaseStep` on the empty frontier. -/
theorem chaseStep_nil (resolve : Definition → List Definition) :
    chaseStep resolve [] = ([], false) := rfl

/-- Unfolding `chaseStep` on a non-empty frontier. -/
theorem chaseStep_cons (resolve : Definition → List Definition)
    (d : Definition) (rest : List Definition) :
    chaseStep resolve (d :: rest) =
      if (GoToDefinitionsWithSameName resolve d).isEmpty
      then (d :: (chaseStep resolve rest).1, (chaseStep resolve rest).2)
      else (GoToDefinitionsWithSameName resolve d ++ (chaseStep resolve rest).1, true) := rfl

/-- Unfolding `chaseLoop` with zero fuel. -/
theorem chaseLoop_zero (resolve : Definition → List Definition)
    (defs : List Definition) : chaseLoop resolve 0 defs = none := rfl

/-- Unfolding `chaseLoop` with positive fuel. -/
theorem chaseLoop_succ (resolve : Definition → List Definition) (fuel : Nat)
    (defs : List Definition) :
    chaseLoop resolve (fuel + 1) defs =
      if (chaseStep resolve defs).2
      then chaseLoop resolve fuel (chaseStep resolve defs).1
      else some (chaseStep resolve defs).1 := rfl

/-- A round over a frontier of terminal definitions keeps it unchanged and
clears the flag. -/
theorem chaseStep_all_terminal (resolve : Definition → List Definition)
    (defs : List Definition)
    (h : ∀ d ∈ defs, GoToDefinitionsWithSameName resolve d = []) :
    chaseStep resolve defs = (defs, false) := by
  induction defs with
  | nil => rfl
  | cons d rest ih =>
    rw [chaseStep_cons, h d (by simp)]
    simp [ih (fun x hx => h x (by simp [hx]))]

/-- A round that clears the flag keeps the frontier unchanged. -/
theorem chaseStep_flag_false (resolve : Definition → List Definition)
    (defs next : List Definition) (h : chaseStep resolve defs = (next, false)) :
    next = defs := by
  induction defs generalizing next with
  | nil => rw [chaseStep_nil] at h; cases h; rfl
  | cons d rest ih =>
    rw [chaseStep_cons] at h
    by_cases hg : (GoToDefinitionsWithSameName resolve d).isEmpty
    · rw [if_pos hg] at h
      rcases hstep : chaseStep resolve rest with ⟨t, fl⟩
      rw [hstep] at h
      rw [Prod.mk.injEq] at h
      obtain ⟨h1, h2⟩ := h
      subst h2
      rw [← h1, ih t hstep]
    · rw [if_neg hg] at h
      have h2 := congrArg Prod.snd h
      simp at h2

/-- Every member of a round output either is a kept terminal member of the
input frontier or belongs to the same-name re-resolution of an input
member. -/
theorem chaseStep_mem (resolve : Definition → List Definition)
    (defs : List Definition) :
    ∀ x ∈ (chaseStep resolve defs).1,
      (x ∈ defs ∧ GoToDefinitionsWithSameName resolve x = []) ∨
      ∃ d ∈ defs, x ∈ GoToDefinitionsWithSameName resolve d := by
  induction defs with
  | nil => simp [chaseStep_nil]
  | cons d rest ih =>
    intro x hx
    rw [chaseStep_cons] at hx
    by_cases hg : (GoToDefinitionsWithSameName resolve d).isEmpty
    · rw [if_pos hg] at hx
      simp only [List.mem_cons] at hx
      rcases hx with rfl | hx
      · exact Or.inl ⟨by simp, List.isEmpty_iff.mp hg⟩
      · rcases ih x hx with ⟨h1, h2⟩ | ⟨e, he, hxe⟩
        · exact Or.inl ⟨by simp [h1], h2⟩
        · exact Or.inr ⟨e, by simp [he], hxe⟩
    · rw [if_neg hg] at hx
      simp only [List.mem_append] at hx
      rcases hx with hx | hx
      · exact Or.inr ⟨d, by simp, hx⟩
      · rcases ih x hx with ⟨h1, h2⟩ | ⟨e, he, hxe⟩
        · exact Or.inl ⟨by simp [h1], h2⟩
        · exact Or.inr ⟨e, by simp [he], hxe⟩

/-- A chase that exits within some fuel exits with the same result at any
larger fuel. -/
theorem chaseLoop_mono (resolve : Definition → List Definition) :
    ∀ fuel fuel' (defs r : List Definition),
      chaseLoop resolve fuel defs = some r → fuel ≤ fuel' →
      chaseLoop resolve fuel' defs = some r := by
  intro fuel
  induction fuel with
  | zero => intro fuel' defs r h; rw [chaseLoop_zero] at h; cases h
  | succ n ih =>
    intro fuel' defs r h hle
    obtain ⟨m, rfl⟩ : ∃ m, fuel' = m + 1 := ⟨fuel' - 1, by omega⟩
    rw [chaseLoop_succ] at h ⊢
    by_cases hs : (chaseStep resolve defs).2
    · rw [if_pos hs] at h ⊢
      exact ih m _ r h (by omega)
    · rw [if_neg hs] at h ⊢
      exact h

/-- Members of a same-name re-resolution differ from the source definition in
module path, line or column. -/
theorem mem_sameName_ne_location (resolve : Definition → List Definition)
    (d x : Definition) (hx : x ∈ GoToDefinitionsWithSameName resolve d) :
    x.module_path ≠ d.module_path ∨ x.line ≠ d.line ∨ x.column ≠ d.column := by
  rw [GoToDefinitionsWithSameName] at hx
  by_cases ht : truthyStr d.module_path = false
  · rw [if_pos ht] at hx; cases hx
  · rw [if_neg ht] at hx
    have := (List.mem_filter.mp hx).2
    exact (of_decide_eq_true this).2

/-- A definition whose re-resolution returns only copies of its own location
has an empty same-name set. -/
theorem sameName_self_only (resolve : Definition → List Definition)
    (d : Definition)
    (h : ∀ x ∈ resolve d,
      x.module_path = d.module_path ∧ x.line = d.line ∧ x.column = d.column) :
    GoToDefinitionsWithSameName resolve d = [] := by
  rw [GoToDefinitionsWithSameName]
  by_cases ht : truthyStr d.module_path = false
  · rw [if_pos ht]
  · rw [if_neg ht]
    rw [List.filter_eq_nil_iff]
    intro x hx
    obtain ⟨h1, h2, h3⟩ := h x hx
    simp [h1, h2, h3]

/-- Bounded termination of the chase loop: when the same-name re-resolution
strictly decreases a rank, a frontier of rank at most `N` (terminal members
aside) exits within `N + 1` rounds. -/
theorem chaseLoop_terminates_of_rank (resolve : Definition → List Definition)
    (mu : Definition → Nat)
    (hrank : ∀ d x, x ∈ GoToDefinitionsWithSameName resolve d → mu x < mu d) :
    ∀ (N : Nat) (defs : List Definition),
      (∀ d ∈ defs, GoToDefinitionsWithSameName resolve d = [] ∨ mu d ≤ N) →
      (chaseLoop resolve (N + 1) defs).isSome = true := by
  intro N
  induction N with
  | zero =>
    intro defs hbound
    have hterm : ∀ d ∈ defs, GoToDefinitionsWithSameName resolve d = [] := by
      intro d hd
      rcases hbound d hd with h | h
      · exact h
      · by_contra hne
        obtain ⟨x, hx⟩ := List.exists_mem_of_ne_nil _ hne
        have := hrank d x hx
        omega
    rw [chaseLoop_succ, chaseStep_all_terminal resolve defs hterm]
    rfl
  | succ N ih =>
    intro defs hbound
    rw [chaseLoop_succ]
    by_cases hs : (chaseStep resolve defs).2
    · rw [if_pos hs]
      apply ih
      intro x hx
      rcases chaseStep_mem resolve defs x hx with ⟨-, h2⟩ | ⟨d, hd, hxd⟩
      · exact Or.inl h2
      · rcases hbound d hd with h | h
        · rw [h] at hxd; cases hxd
        · have := hrank d x hxd
          exact Or.inr (by omega)
    · rw [if_neg hs]
      rfl

/-- An engine that never resolves anything yields an empty same-name set for
every definition. -/
theorem sameName_const_nil (d : Definition) :
    GoToDefinitionsWithSameName (fun _ => []) d = [] := by
  by_cases ht : truthyStr d.module_path = false
  · rw [GoToDefinitionsWithSameName, if_pos ht]
  · rw [GoToDefinitionsWithSameName, if_neg ht]
    rfl

/-- Lookup after inserting at the front finds the inserted value. -/
theorem alookup_cons_self {κ ν : Type} [DecidableEq κ] (k : κ) (v : ν)
    (rest : List (κ × ν)) : alookup ((k, v) :: rest) k = some v := by
  simp [alookup]

/-- A second fetch with the same key on the cache produced by a first fetch
returns the same value, leaves the cache unchanged and does not compute. -/
theorem cacheFetch_stable {κ ν : Type} [DecidableEq κ] (compute : κ → ν)
    (cache : List (κ × ν)) (key : κ) (v : ν) (c' : List (κ × ν)) (b : Bool)
    (h : cacheFetch compute cache key = (v, c', b)) :
    cacheFetch compute c' key = (v, c', false) := by
  rcases halo : alookup cache key with - | w
  · simp only [cacheFetch, halo] at h
    rw [Prod.mk.injEq, Prod.mk.injEq] at h
    obtain ⟨h1, h2, -⟩ := h
    subst h1
    subst h2
    simp [cacheFetch, alookup_cons_self]
  · simp only [cacheFetch, halo] at h
    rw [Prod.mk.injEq, Prod.mk.injEq] at h
    obtain ⟨h1, h2, -⟩ := h
    subst h1
    subst h2
    simp [cacheFetch, halo]

/-- A fetch whose key is absent from the cache runs the computation. -/
theorem cacheFetch_fresh {κ ν : Type} [DecidableEq κ] (compute : κ → ν)
    (cache : List (κ × ν)) (key : κ) (h : alookup cache key = none) :
    (cacheFetch compute cache key).2.2 = true := by
  simp [cacheFetch, h]

/-- A resolvable truthy interpreter path reduces environment resolution to a
cache fetch at the normalized resolved path. -/
theorem EnvironmentForInterpreterPath_resolved {Env : Type}
    (expand : String → String) (findExe : String → Option String)
    (normpath : String → String) (defaultEnv : Env) (createEnv : String → Env)
    (cache : List (Option String × Env)) (p r : String)
    (hp : p ≠ "") (hf : findExe (expand p) = some r) :
    EnvironmentForInterpreterPath expand findExe normpath defaultEnv createEnv
        cache (some p) =
      (match alookup cache (some (normpath r)) with
       | some environment => (Except.ok environment, cache)
       | none =>
         (Except.ok (envForKey defaultEnv createEnv (some (normpath r))),
          (some (normpath r), envForKey defaultEnv createEnv (some (normpath r))) :: cache)) := by
  unfold EnvironmentForInterpreterPath
  simp only [if_neg hp, hf]

/-- A chase whose final round produced `some []` reports the navigation
error. -/
theorem GoToDefinition_of_nil (resolve : Definition → List Definition)
    (fuel : Nat) (initial : List Definition)
    (h : chaseLoop resolve fuel initial = some []) :
    GoToDefinition resolve fuel initial =
      some (Except.error ⟨"cannot jump to definition"⟩) := by
  unfold GoToDefinition
  rw [h]
  rfl

/-- A chase whose final round produced a non-empty list builds the go-to
response. -/
theorem GoToDefinition_of_cons (resolve : Definition → List Definition)
    (fuel : Nat) (initial : List Definition) (d : Definition)
    (rest : List Definition) (h : chaseLoop resolve fuel initial = some (d :: rest)) :
    GoToDefinition resolve fuel initial =
      some (Except.ok (BuildGoToResponse (d :: rest))) := by
  unfold GoToDefinition
  rw [h]
  rfl

/-- C1: an initial resolution that starts a same-name alias chain
`A → B → C`, where `C` (and likewise a direct definition `dd`) has no
further same-name re-resolution, makes GoToDefinition return exactly the
single definition at the end of the chain: `C` for the chain (in three
rounds), `dd` unchanged for the direct definition (in one round). -/
theorem goto_definition_alias_chain (resolve : Definition → List Definition)
    (A B C dd : Definition) (fuel fuel' : Nat)
    (hA : GoToDefinitionsWithSameName resolve A = [B])
    (hB : GoToDefinitionsWithSameName resolve B = [C])
    (hC : GoToDefinitionsWithSameName resolve C = [])
    (hd : GoToDefinitionsWithSameName resolve dd = [])
    (hfuel : 3 ≤ fuel) (hfuel' : 1 ≤ fuel') :
    GoToDefinition resolve fuel [A] =
      some (Except.ok (GoToResponseResult.single ⟨C.module_path, C.line, C.column + 1⟩)) ∧
    GoToDefinition resolve fuel' [dd] =
      some (Except.ok (GoToResponseResult.single ⟨dd.module_path, dd.line, dd.column + 1⟩)) := by
  have sA : chaseStep resolve [A] = ([B], true) := by
    rw [chaseStep_cons, hA]
    simp [chaseStep_nil]
  have sB : chaseStep resolve [B] = ([C], true) := by
    rw [chaseStep_cons, hB]
    simp [chaseStep_nil]
  have sC : chaseStep resolve [C] = ([C], false) := by
    rw [chaseStep_cons, hC]
    simp [chaseStep_nil]
  have sd : chaseStep resolve [dd] = ([dd], false) := by
    rw [chaseStep_cons, hd]
    simp [chaseStep_nil]
  have l3 : chaseLoop resolve 3 [A] = chaseLoop resolve 2 [B] := by
    rw [show (3 : Nat) = 2 + 1 from rfl, chaseLoop_succ, sA]
    rfl
  have l2 : chaseLoop resolve 2 [B] = chaseLoop resolve 1 [C] := by
    rw [show (2 : Nat) = 1 + 1 from rfl, chaseLoop_succ, sB]
    rfl
  have l1 : chaseLoop resolve 1 [C] = some [C] := by
    rw [show (1 : Nat) = 0 + 1 from rfl, chaseLoop_succ, sC]
    rfl
  have ld : chaseLoop resolve 1 [dd] = some [dd] := by
    rw [show (1 : Nat) = 0 + 1 from rfl, chaseLoop_succ, sd]
    rfl
  have chaseA : chaseLoop resolve fuel [A] = some [C] :=
    chaseLoop_mono resolve 3 fuel [A] [C] (l3.trans (l2.trans l1)) hfuel
  have chaseD : chaseLoop resolve fuel' [dd] = some [dd] :=
    chaseLoop_mono resolve 1 fuel' [dd] [dd] ld hfuel'
  exact ⟨GoToDefinition_of_cons resolve fuel [A] C [] chaseA,
         GoToDefinition_of_cons resolve fuel' [dd] dd [] chaseD⟩

/-- C1 witness: the concrete chain `chainA → chainB → chainC` yields the
single location of `chainC`, and the terminal `chainC` alone is returned
unchanged. -/
theorem goto_definition_alias_chain_witness :
    GoToDefinition chainResolve 3 [chainA] =
      some (Except.ok (GoToResponseResult.single ⟨some "c.py", 1, 1⟩)) ∧
    GoToDefinition chainResolve 1 [chainC] =
      some (Except.ok (GoToResponseResult.single ⟨some "c.py", 1, 1⟩)) :=
  goto_definition_alias_chain chainResolve chainA chainB chainC chainC 3 1
    (by decide) (by decide) (by decide) (by decide) (by decide) (by decide)

/-- C2 counterexample: the chase loop does not terminate for every engine
behaviour: on the two-step same-name alias cycle `defA → defB → defA`
(distinct locations, so the strict-inequality filter never empties), the
loop never exits. -/
theorem chase_cycle_not_terminating : ¬ ChaseTerminates cycResolve [defA] := by
  have key : ∀ fuel, chaseLoop cycResolve fuel [defA] = none ∧
      chaseLoop cycResolve fuel [defB] = none := by
    intro fuel
    induction fuel with
    | zero => exact ⟨rfl, rfl⟩
    | succ n ih =>
      have sA : chaseStep cycResolve [defA] = ([defB], true) := by decide
      have sB : chaseStep cycResolve [defB] = ([defA], true) := by decide
      constructor
      · rw [chaseLoop_succ, sA]
        exact ih.2
      · rw [chaseLoop_succ, sB]
        exact ih.1
  rintro ⟨fuel, hf⟩
  rw [(key fuel).1] at hf
  simp at hf

/-- C2 (amended): the self-reference filter works as claimed — every
re-resolved definition kept by the filter differs from its source in module
path, line or column, and a definition whose re-resolution returns only its
own location is terminal (the loop exits after one round with the frontier
unchanged) — and the loop terminates within `N + 1` rounds whenever the
same-name re-resolution strictly decreases a rank bounded by `N` on the
initial frontier (as alias-chain depth does on an acyclic chain); but
termination does not hold for every engine behaviour (see the cycle
counterexample). -/
theorem goto_chase_termination_amended :
    (∀ (resolve : Definition → List Definition) (d x : Definition),
        x ∈ GoToDefinitionsWithSameName resolve d →
        x.module_path ≠ d.module_path ∨ x.line ≠ d.line ∨ x.column ≠ d.column) ∧
    (∀ (resolve : Definition → List Definition) (d : Definition),
        (∀ x ∈ resolve d,
          x.module_path = d.module_path ∧ x.line = d.line ∧ x.column = d.column) →
        chaseLoop resolve 1 [d] = some [d]) ∧
    (∀ (resolve : Definition → List Definition) (mu : Definition → Nat) (N : Nat)
        (defs : List Definition),
        (∀ d x, x ∈ GoToDefinitionsWithSameName resolve d → mu x < mu d) →
        (∀ d ∈ defs, GoToDefinitionsWithSameName resolve d = [] ∨ mu d ≤ N) →
        (chaseLoop resolve (N + 1) defs).isSome = true) := by
  refine ⟨mem_sameName_ne_location, ?_, ?_⟩
  · intro resolve d h
    have hempty := sameName_self_only resolve d h
    have hstep : chaseStep resolve [d] = ([d], false) := by
      apply chaseStep_all_terminal
      intro e he
      rw [List.mem_singleton] at he
      subst he
      exact hempty
    rw [show (1 : Nat) = 0 + 1 from rfl, chaseLoop_succ, hstep]
    rfl
  · intro resolve mu N defs hrank hbound
    exact chaseLoop_terminates_of_rank resolve mu hrank N defs hbound

/-- C2 witness: the amended statement applied at concrete inputs — the
filtered result `defB` of re-resolving `defA` in the cycle differs from
`defA` in location; an engine resolving `defA` only to itself makes the
loop exit in one round; an engine resolving nothing exits within one
round from `[defA]`. -/
theorem goto_chase_termination_amended_witness :
    (defB.module_path ≠ defA.module_path ∨ defB.line ≠ defA.line ∨
      defB.column ≠ defA.column) ∧
    chaseLoop (fun _ => [defA]) 1 [defA] = some [defA] ∧
    (chaseLoop (fun _ => []) 1 [defA]).isSome = true :=
  ⟨goto_chase_termination_amended.1 cycResolve defA defB (by decide),
   goto_chase_termination_amended.2.1 (fun _ => [defA]) defA (by decide),
   goto_chase_termination_amended.2.2 (fun _ => []) (fun _ => 0) 0 [defA]
     (fun d x hx => by rw [sameName_const_nil] at hx; cases hx)
     (fun d _ => Or.inl (sameName_const_nil d))⟩

/-- C3: each navigation query raises the navigation error exactly when its
result set is empty — GoToDefinition when the chase's final definition set
is empty, GoToType when the goto-definitions call returns an empty sequence,
GoToReferences when the usages call returns an empty sequence — and
otherwise builds and returns the go-to response. -/
theorem navigation_error_iff_empty :
    (∀ (resolve : Definition → List Definition) (fuel : Nat)
        (initial final : List Definition),
        chaseLoop resolve fuel initial = some final →
        ((GoToDefinition resolve fuel initial =
            some (Except.error ⟨"cannot jump to definition"⟩)) ↔ final = []) ∧
        (final ≠ [] →
          GoToDefinition resolve fuel initial =
            some (Except.ok (BuildGoToResponse final)))) ∧
    (∀ defs : List Definition,
        (GoToType defs = Except.error ⟨"cannot jump to type definition"⟩ ↔ defs = []) ∧
        (defs ≠ [] → GoToType defs = Except.ok (BuildGoToResponse defs))) ∧
    (∀ defs : List Definition,
        (GoToReferences defs = Except.error ⟨"cannot find references"⟩ ↔ defs = []) ∧
        (defs ≠ [] → GoToReferences defs = Except.ok (BuildGoToResponse defs))) := by
  refine ⟨?_, ?_, ?_⟩
  · intro resolve fuel initial final h
    cases final with
    | nil =>
      exact ⟨⟨fun _ => rfl, fun _ => GoToDefinition_of_nil resolve fuel initial h⟩,
             fun hne => absurd rfl hne⟩
    | cons d rest =>
      constructor
      · constructor
        · intro he
          rw [GoToDefinition_of_cons resolve fuel initial d rest h] at he
          simp at he
        · intro he
          exact absurd he (by simp)
      · intro _
        exact GoToDefinition_of_cons resolve fuel initial d rest h
  · intro defs
    cases defs with
    | nil => exact ⟨⟨fun _ => rfl, fun _ => rfl⟩, fun hne => absurd rfl hne⟩
    | cons d rest =>
      constructor
      · constructor
        · intro he
          rw [show GoToType (d :: rest) = Except.ok (BuildGoToResponse (d :: rest)) from rfl] at he
          simp at he
        · intro he
          exact absurd he (by simp)
      · intro _
        rfl
  · intro defs
    cases defs with
    | nil => exact ⟨⟨fun _ => rfl, fun _ => rfl⟩, fun hne => absurd rfl hne⟩
    | cons d rest =>
      constructor
      · constructor
        · intro he
          rw [show GoToReferences (d :: rest) = Except.ok (BuildGoToResponse (d :: rest)) from rfl] at he
          simp at he
        · intro he
          exact absurd he (by simp)
      · intro _
        rfl

/-- C3 witness: concrete empty and non-empty result sets for the three
queries. -/
theorem navigation_error_iff_empty_witness :
    GoToDefinition (fun _ => []) 1 ([] : List Definition) =
      some (Except.error ⟨"cannot jump to definition"⟩) ∧
    GoToType [emptyDocDef] = Except.ok (BuildGoToResponse [emptyDocDef]) ∧
    GoToReferences ([] : List Definition) = Except.error ⟨"cannot find references"⟩ :=
  ⟨(navigation_error_iff_empty.1 (fun _ => []) 1 [] [] rfl).1.mpr rfl,
   (navigation_error_iff_empty.2.1 [emptyDocDef]).2 (by simp),
   (navigation_error_iff_empty.2.2 []).1.mpr rfl⟩

/-- C4 counterexample: with two definitions whose docstrings are all empty,
GetDoc does not raise (the separator-joined string is non-empty), refuting
"fails exactly when all docstrings are empty or absent". -/
theorem getdoc_two_empty_docstrings_ok :
    emptyDocDef.docstring = "" ∧ isError (GetDoc [emptyDocDef, emptyDocDef]) = false := by
  decide

/-- C4 (amended): GetDoc returns the docstrings joined by the
horizontal-rule separator and fails with the navigation error exactly when
the joined string is empty — that is, when there are no definitions or
exactly one definition with an empty docstring; with two or more
definitions it never fails, even if every docstring is empty. -/
theorem getdoc_error_characterization (defs : List Definition) :
    (isError (GetDoc defs) = true ↔
      defs = [] ∨ ∃ d, defs = [d] ∧ d.docstring = "") ∧
    (∀ r, GetDoc defs = Except.ok r →
      r.text = joinStr "\n---\n" (defs.map Definition.docstring)) := by
  have key : joinStr "\n---\n" (defs.map Definition.docstring) = "" ↔
      defs = [] ∨ ∃ d, defs = [d] ∧ d.docstring = "" := by
    rw [joinStr_eq_empty_iff _ (by decide)]
    constructor
    · rintro (h | ⟨a, ha, rfl⟩)
      · exact Or.inl (List.map_eq_nil_iff.mp h)
      · cases defs with
        | nil => exact absurd ha (by simp)
        | cons d t =>
          cases t with
          | nil =>
            simp only [List.map_cons, List.map_nil, List.cons.injEq, and_true] at ha
            exact Or.inr ⟨d, rfl, ha⟩
          | cons e u => exact absurd ha (by simp)
    · rintro (rfl | ⟨d, rfl, hd⟩)
      · exact Or.inl rfl
      · exact Or.inr ⟨d.docstring, by simp, hd⟩
  constructor
  · by_cases hj : joinStr "\n---\n" (defs.map Definition.docstring) = ""
    · rw [GetDoc, if_pos hj]
      exact iff_of_true rfl (key.mp hj)
    · rw [GetDoc, if_neg hj]
      exact iff_of_false (by simp [isError]) (fun hc => hj (key.mpr hc))
  · intro r hr
    rw [GetDoc] at hr
    by_cases hj : joinStr "\n---\n" (defs.map Definition.docstring) = ""
    · rw [if_pos hj] at hr
      cases hr
    · rw [if_neg hj] at hr
      cases hr
      rfl

/-- C4 witness: the empty definition set makes GetDoc raise. -/
theorem getdoc_error_characterization_witness :
    isError (GetDoc ([] : List Definition)) = true :=
  (getdoc_error_characterization []).1.mpr (Or.inl rfl)

/-- C5 counterexample: a single definition with an empty description and no
params attribute makes GetType raise even though the definition set is
non-empty, refuting "fails exactly when there are no definitions". -/
theorem gettype_error_with_nonempty_definitions :
    isError (GetType [emptyTypeDef]) = true ∧
    [emptyTypeDef] ≠ ([] : List Definition) := by
  decide

/-- C5 (amended): GetType returns, per definition, the base description
followed by the parenthesized parameter list built by dropping the first 6
characters of each parameter description (a definition lacking a params
attribute contributes only its description), joined by a comma and space;
and it fails with the navigation error exactly when the joined type string
is empty — that is, when there are no definitions or exactly one definition
with an empty description and no params attribute. -/
theorem gettype_error_characterization (defs : List Definition) :
    (isError (GetType defs) = true ↔
      defs = [] ∨ ∃ d, defs = [d] ∧ d.description = "" ∧ d.params = none) ∧
    (∀ r, GetType defs = Except.ok r →
      r.message = joinStr ", " (defs.map fun d => BuildTypeInfo d.description d.params)) := by
  have key : joinStr ", " (defs.map fun d => BuildTypeInfo d.description d.params) = "" ↔
      defs = [] ∨ ∃ d, defs = [d] ∧ d.description = "" ∧ d.params = none := by
    rw [joinStr_eq_empty_iff _ (by decide)]
    constructor
    · rintro (h | ⟨a, ha, rfl⟩)
      · exact Or.inl (List.map_eq_nil_iff.mp h)
      · cases defs with
        | nil => exact absurd ha (by simp)
        | cons d t =>
          cases t with
          | nil =>
            simp only [List.map_cons, List.map_nil, List.cons.injEq, and_true] at ha
            exact Or.inr ⟨d, rfl, (BuildTypeInfo_eq_empty_iff d.description d.params).mp ha⟩
          | cons e u => exact absurd ha (by simp)
    · rintro (rfl | ⟨d, rfl, hd, hp⟩)
      · exact Or.inl rfl
      · refine Or.inr ⟨BuildTypeInfo d.description d.params, by simp, ?_⟩
        exact (BuildTypeInfo_eq_empty_iff d.description d.params).mpr ⟨hd, hp⟩
  constructor
  · by_cases hj : joinStr ", " (defs.map fun d => BuildTypeInfo d.description d.params) = ""
    · rw [GetType, if_pos hj]
      exact iff_of_true rfl (key.mp hj)
    · rw [GetType, if_neg hj]
      exact iff_of_false (by simp [isError]) (fun hc => hj (key.mpr hc))
  · intro r hr
    rw [GetType] at hr
    by_cases hj : joinStr ", " (defs.map fun d => BuildTypeInfo d.description d.params) = ""
    · rw [if_pos hj] at hr
      cases hr
    · rw [if_neg hj] at hr
      cases hr
      rfl

/-- C5 witness: the empty definition set makes GetType raise. -/
theorem gettype_error_characterization_witness :
    isError (GetType ([] : List Definition)) = true :=
  (gettype_error_characterization []).1.mpr (Or.inl rfl)

/-- C6: a non-empty interpreter path whose expansion has no resolvable
executable makes environment resolution raise the resolution error naming
the offending raw path, and the environment cache is returned unchanged. -/
theorem environment_resolution_failure {Env : Type}
    (expand : String → String) (findExe : String → Option String)
    (normpath : String → String) (defaultEnv : Env) (createEnv : String → Env)
    (cache : List (Option String × Env)) (p : String)
    (hp : p ≠ "") (hfind : findExe (expand p) = none) :
    EnvironmentForInterpreterPath expand findExe normpath defaultEnv createEnv
        cache (some p) =
      (Except.error ⟨"Cannot find Python interpreter path " ++ p ++ "."⟩, cache) := by
  unfold EnvironmentForInterpreterPath
  simp only [if_neg hp, hfind]

/-- C6 witness: a concrete unresolvable path raises and leaves the empty
cache empty. -/
theorem environment_resolution_failure_witness :
    EnvironmentForInterpreterPath id (fun _ => none) id (0 : Nat) (fun _ => 1)
        [] (some "python") =
      (Except.error ⟨"Cannot find Python interpreter path " ++ "python" ++ "."⟩, []) :=
  environment_resolution_failure id (fun _ => none) id 0 (fun _ => 1) [] "python"
    (by decide) rfl

/-- C7: two raw non-empty interpreter paths that resolve and normalize to
the same executable path share one environment handle — the first call
succeeds, and the second call returns exactly the first call's handle and
leaves the cache of the first call unchanged. -/
theorem environment_handle_dedup {Env : Type}
    (expand : String → String) (findExe : String → Option String)
    (normpath : String → String) (defaultEnv : Env) (createEnv : String → Env)
    (c0 : List (Option String × Env)) (p1 p2 r1 r2 : String)
    (h1 : p1 ≠ "") (h2 : p2 ≠ "")
    (hf1 : findExe (expand p1) = some r1) (hf2 : findExe (expand p2) = some r2)
    (hn : normpath r1 = normpath r2) :
    isError (EnvironmentForInterpreterPath expand findExe normpath defaultEnv
        createEnv c0 (some p1)).1 = false ∧
    EnvironmentForInterpreterPath expand findExe normpath defaultEnv createEnv
        (EnvironmentForInterpreterPath expand findExe normpath defaultEnv createEnv
          c0 (some p1)).2 (some p2) =
      ((EnvironmentForInterpreterPath expand findExe normpath defaultEnv createEnv
          c0 (some p1)).1,
       (EnvironmentForInterpreterPath expand findExe normpath defaultEnv createEnv
          c0 (some p1)).2) := by
  have e1 := EnvironmentForInterpreterPath_resolved expand findExe normpath
    defaultEnv createEnv c0 p1 r1 h1 hf1
  rcases halo : alookup c0 (some (normpath r1)) with - | env
  · rw [halo] at e1
    have e2 := EnvironmentForInterpreterPath_resolved expand findExe normpath
      defaultEnv createEnv ((some (normpath r1),
        envForKey defaultEnv createEnv (some (normpath r1))) :: c0) p2 r2 h2 hf2
    rw [← hn, alookup_cons_self] at e2
    rw [e1]
    exact ⟨rfl, e2⟩
  · rw [halo] at e1
    have e2 := EnvironmentForInterpreterPath_resolved expand findExe normpath
      defaultEnv createEnv c0 p2 r2 h2 hf2
    rw [← hn, halo] at e2
    rw [e1]
    exact ⟨rfl, e2⟩

/-- C7 witness: two distinct raw paths resolving to one executable share the
handle built by the first call. -/
theorem environment_handle_dedup_witness :
    isError (EnvironmentForInterpreterPath id (fun _ => some "/usr/bin/python3")
        id (0 : Nat) (fun _ => 7) [] (some "python")).1 = false ∧
    EnvironmentForInterpreterPath id (fun _ => some "/usr/bin/python3") id 0
        (fun _ => 7)
        (EnvironmentForInterpreterPath id (fun _ => some "/usr/bin/python3") id 0
          (fun _ => 7) [] (some "python")).2 (some "python3") =
      ((EnvironmentForInterpreterPath id (fun _ => some "/usr/bin/python3") id 0
          (fun _ => 7) [] (some "python")).1,
       (EnvironmentForInterpreterPath id (fun _ => some "/usr/bin/python3") id 0
          (fun _ => 7) [] (some "python")).2) :=
  environment_handle_dedup id (fun _ => some "/usr/bin/python3") id 0 (fun _ => 7)
    [] "python" "python3" "/usr/bin/python3" "/usr/bin/python3"
    (by decide) (by decide) rfl rfl rfl

/-- C8: settings resolution, environment resolution and search-path
computation are each keyed by the (filepath, client_data) pair and computed
at most once — a second request with the identical pair returns the cached
value without recomputing and leaves the cache unchanged, while a request
whose pair is absent from the cache (a different client_data token or file)
runs a fresh computation. -/
theorem request_caches_at_most_once :
    (∀ (Settings ClientData : Type) [DecidableEq ClientData]
        (compute : String → ClientData → Settings)
        (cache : List ((String × ClientData) × Settings))
        (f : String) (t : ClientData) (v : Settings)
        (c' : List ((String × ClientData) × Settings)) (b : Bool),
        SettingsForRequest compute cache f t = (v, c', b) →
        SettingsForRequest compute c' f t = (v, c', false)) ∧
    (∀ (Settings ClientData : Type) [DecidableEq ClientData]
        (compute : String → ClientData → Settings)
        (cache : List ((String × ClientData) × Settings))
        (f : String) (t : ClientData),
        alookup cache (f, t) = none →
        (SettingsForRequest compute cache f t).2.2 = true) ∧
    (∀ (Env ClientData : Type) [DecidableEq ClientData]
        (compute : String → ClientData → Env)
        (cache : List ((String × ClientData) × Env))
        (f : String) (t : ClientData) (v : Env)
        (c' : List ((String × ClientData) × Env)) (b : Bool),
        EnvironmentForRequest compute cache f t = (v, c', b) →
        EnvironmentForRequest compute c' f t = (v, c', false)) ∧
    (∀ (Env ClientData : Type) [DecidableEq ClientData]
        (compute : String → ClientData → Env)
        (cache : List ((String × ClientData) × Env))
        (f : String) (t : ClientData),
        alookup cache (f, t) = none →
        (EnvironmentForRequest compute cache f t).2.2 = true) ∧
    (∀ (ClientData : Type) [DecidableEq ClientData]
        (compute : String → ClientData → List String)
        (cache : List ((String × ClientData) × List String))
        (f : String) (t : ClientData) (v : List String)
        (c' : List ((String × ClientData) × List String)) (b : Bool),
        SysPathForFile compute cache f t = (v, c', b) →
        SysPathForFile compute c' f t = (v, c', false)) ∧
    (∀ (ClientData : Type) [DecidableEq ClientData]
        (compute : String → ClientData → List String)
        (cache : List ((String × ClientData) × List String))
        (f : String) (t : ClientData),
        alookup cache (f, t) = none →
        (SysPathForFile compute cache f t).2.2 = true) := by
  refine ⟨?_, ?_, ?_, ?_, ?_, ?_⟩
  · intro S CD instCD compute cache f t v c' b h
    unfold SettingsForRequest at h ⊢
    exact cacheFetch_stable _ cache (f, t) v c' b h
  · intro S CD instCD compute cache f t h
    unfold SettingsForRequest
    exact cacheFetch_fresh _ cache (f, t) h
  · intro E CD instCD compute cache f t v c' b h
    unfold EnvironmentForRequest at h ⊢
    exact cacheFetch_stable _ cache (f, t) v c' b h
  · intro E CD instCD compute cache f t h
    unfold EnvironmentForRequest
    exact cacheFetch_fresh _ cache (f, t) h
  · intro CD instCD compute cache f t v c' b h
    unfold SysPathForFile at h ⊢
    exact cacheFetch_stable _ cache (f, t) v c' b h
  · intro CD instCD compute cache f t h
    unfold SysPathForFile
    exact cacheFetch_fresh _ cache (f, t) h

/-- C8 witness: concrete second-request cache hits and fresh computations
for the three request caches. -/
theorem request_caches_at_most_once_witness :
    SettingsForRequest (fun _ _ => (7 : Nat)) [(("f.py", (0 : Nat)), 7)] "f.py" 0 =
      (7, [(("f.py", 0), 7)], false) ∧
    (SettingsForRequest (fun _ _ => (7 : Nat))
      ([] : List ((String × Nat) × Nat)) "f.py" 0).2.2 = true ∧
    EnvironmentForRequest (fun _ _ => (5 : Nat)) [(("f.py", (0 : Nat)), 5)] "f.py" 0 =
      (5, [(("f.py", 0), 5)], false) ∧
    (EnvironmentForRequest (fun _ _ => (5 : Nat))
      ([] : List ((String × Nat) × Nat)) "f.py" 0).2.2 = true ∧
    SysPathForFile (fun _ _ => ["/lib"]) [(("f.py", (0 : Nat)), ["/lib"])] "f.py" 0 =
      (["/lib"], [(("f.py", 0), ["/lib"])], false) ∧
    (SysPathForFile (fun _ _ => ["/lib"])
      ([] : List ((String × Nat) × List String)) "f.py" 0).2.2 = true :=
  ⟨request_caches_at_most_once.1 Nat Nat (fun _ _ => 7) [] "f.py" 0 7
     [(("f.py", 0), 7)] true rfl,
   request_caches_at_most_once.2.1 Nat Nat (fun _ _ => 7) [] "f.py" 0 rfl,
   request_caches_at_most_once.2.2.1 Nat Nat (fun _ _ => 5) [] "f.py" 0 5
     [(("f.py", 0), 5)] true rfl,
   request_caches_at_most_once.2.2.2.1 Nat Nat (fun _ _ => 5) [] "f.py" 0 rfl,
   request_caches_at_most_once.2.2.2.2.1 Nat (fun _ _ => ["/lib"]) [] "f.py" 0
     ["/lib"] [(("f.py", 0), ["/lib"])] true rfl,
   request_caches_at_most_once.2.2.2.2.2 Nat (fun _ _ => ["/lib"]) [] "f.py" 0 rfl⟩

/-- C9: candidate detailing is idempotent — a candidate whose extra-data
field is already a plain record is skipped unchanged, and running the
detailing pass a second time over any batch (mixed or not) changes
nothing. -/
theorem detail_candidates_idempotent :
    (∀ candidates : List Candidate,
      DetailCandidates (DetailCandidates candidates) = DetailCandidates candidates) ∧
    (∀ (candidate : Candidate) (location : Option CandidateLocation),
      candidate.extra_data = ExtraData.record location →
      DetailCandidate candidate = candidate) := by
  have hskip : ∀ (c : Candidate) (loc : Option CandidateLocation),
      c.extra_data = ExtraData.record loc → DetailCandidate c = c := by
    intro c loc h
    unfold DetailCandidate
    rw [h]
  have hidem : ∀ c : Candidate, DetailCandidate (DetailCandidate c) = DetailCandidate c := by
    intro c
    rcases hc : c.extra_data with completion | loc
    · have h1 : DetailCandidate c =
          ⟨c.insertion_text,
           some (BuildTypeInfo completion.description completion.params),
           some completion.docstring,
           some completion.type,
           ExtraData.record (GetExtraData completion)⟩ := by
        unfold DetailCandidate
        rw [hc]
      rw [h1]
      exact hskip _ (GetExtraData completion) rfl
    · rw [hskip c loc hc, hskip c loc hc]
  refine ⟨fun cands => ?_, hskip⟩
  show (cands.map DetailCandidate).map DetailCandidate = cands.map DetailCandidate
  induction cands with
  | nil => rfl
  | cons c t ih =>
    simp only [List.map_cons]
    rw [hidem c, ih]

/-- C9 witness: an already-detailed candidate is left unchanged by the
detailing pass. -/
theorem detail_candidates_idempotent_witness :
    DetailCandidate ⟨"x", none, none, none, ExtraData.record none⟩ =
      ⟨"x", none, none, none, ExtraData.record none⟩ :=
  detail_candidates_idempotent.2 ⟨"x", none, none, none, ExtraData.record none⟩
    none rfl
